import Mathlib

/-!
Verification of the twitch-irc-mcp core against its design document.

This file gives a shallow embedding of the two stateful components the
testable properties talk about — the `MessageStore` (bounded multi-channel
message history with filter/pagination semantics) and the `TwitchClient`
connection state machine — together with the `filterMessages` tool handler
of the MCP server, and proves (or refutes) the frozen claims about them.

JavaScript peculiarities that matter are modelled explicitly:
* `Array.prototype.slice` with signed (possibly negative) indices,
  including the fact that `-0 = 0`, so `slice(-0)` is `slice(0)`;
* string truthiness (`""` is falsy) on optional filter fields;
* `Date` values that may be *Invalid* (`new Date(unparsable)` yields an
  Invalid Date rather than throwing); every ordering comparison against an
  Invalid Date is `false`;
* `Array.prototype.sort` is a stable sort; it is modelled by a stable
  insertion sort on timestamps (none of the claims depends on which stable
  sorting algorithm is used, only on the function being fixed).

Timestamps are modelled as integers (milliseconds since the epoch, the
value of `Date.prototype.getTime`); messages are always stored with a
valid timestamp (`new Date()` in the message handler), so `Message.timestamp`
is an `Int`, while the query-time bounds `since`/`until` may be Invalid.
-/

/-- A JavaScript `Date`: either a valid instant (its `getTime` value in
milliseconds) or the Invalid Date produced e.g. by `new Date("garbage")`. -/
inductive JsDate where
  | valid (t : Int)
  | invalid
deriving DecidableEq, Repr

/-- JS `ts >= d` where `ts` is a valid instant and `d` a possibly-Invalid
`Date`: any comparison against an Invalid Date (NaN) is `false`. -/
def JsDate.geTime (ts : Int) : JsDate → Bool
  | .valid x => decide (x ≤ ts)
  | .invalid => false

/-- JS `ts <= d` where `ts` is a valid instant and `d` a possibly-Invalid
`Date`: any comparison against an Invalid Date (NaN) is `false`. -/
def JsDate.leTime (ts : Int) : JsDate → Bool
  | .valid x => decide (ts ≤ x)
  | .invalid => false

/-- JS `Array.prototype.slice(start, stop)` with signed indices:
a negative index counts from the end (clamped at 0), a non-negative index
is clamped at the length.  Note `(-0 : Int) = 0`, which reproduces the
JavaScript identity `slice(-0) = slice(0)`. -/
def jsSlice (l : List α) (start stop : Int) : List α :=
  let len : Int := l.length
  let s : Int := if start < 0 then max (len + start) 0 else min start len
  let e : Int := if stop < 0 then max (len + stop) 0 else min stop len
  (l.drop s.toNat).take (e - s).toNat

/-- JS one-argument `slice(start)`: the end index defaults to the length. -/
def jsSlice1 (l : List α) (start : Int) : List α :=
  jsSlice l start (l.length : Int)

/-- JS `hay.includes(needle)` on lists of characters: is `needle` a
contiguous run inside `hay`?  (`[].isEmpty`-style base case makes the empty
needle always included, as in JavaScript.) -/
def listIncludes (needle : List Char) : List Char → Bool
  | [] => needle.isEmpty
  | h :: t => needle.isPrefixOf (h :: t) || listIncludes needle t

/-- JS `hay.includes(needle)` on strings. -/
def strIncludes (hay needle : String) : Bool :=
  listIncludes needle.toList hay.toList

/-- JS truthiness of an optional string: `undefined` and `""` are falsy. -/
def strTruthy : Option String → Bool
  | none => false
  | some s => decide (s ≠ "")

/-- JS `s.toLowerCase()`, modelled character-by-character (for the ASCII
channel/user names involved this agrees with JavaScript). -/
def jsToLower (s : String) : String :=
  String.mk (s.toList.map Char.toLower)

/-- JS `s.startsWith(pre)`. -/
def strStartsWith (s pre : String) : Bool :=
  pre.toList.isPrefixOf s.toList

/-- A metadata tag value from the IRC userstate:
`Record<string, string | boolean | null>`. -/
inductive TagValue where
  | str (s : String)
  | boolean (b : Bool)
  | null
deriving DecidableEq, Repr

/-- `Message` from `messageStore.ts`: one stored Twitch chat message. -/
structure Message where
  id : String
  channel : String
  username : String
  message : String
  timestamp : Int
  tags : List (String × TagValue)
deriving DecidableEq, Repr

/-- `MessageFilter` from `messageStore.ts`: the query-time filter object. -/
structure MessageFilter where
  channel : Option String := none
  username : Option String := none
  contains : Option String := none
  since : Option JsDate := none
  «until» : Option JsDate := none
  page : Option Int := none
  pageSize : Option Int := none
deriving DecidableEq, Repr

/-- Lookup in a JS `Map<string, α>` modelled as an association list in key
insertion order. -/
def mapGet : List (String × α) → String → Option α
  | [], _ => none
  | (k, v) :: t, key => if k = key then some v else mapGet t key

/-- JS `Map.set`: replace the value in place if the key exists, otherwise
append the new entry at the end (insertion order). -/
def mapSet : List (String × α) → String → α → List (String × α)
  | [], key, v => [(key, v)]
  | (k, w) :: t, key, v =>
    if k = key then (key, v) :: t else (k, w) :: mapSet t key v

/-- JS `Map.delete`: remove the entry for the key, keeping the others in
order. -/
def mapDelete : List (String × α) → String → List (String × α)
  | [], _ => []
  | (k, v) :: t, key =>
    if k = key then mapDelete t key else (k, v) :: mapDelete t key

/-- `MessageStore` from `messageStore.ts`: a `Map` from lower-cased channel
name to that channel's message list, plus the per-channel bound. -/
structure MessageStore where
  messages : List (String × List Message)
  maxMessagesPerChannel : Nat
deriving DecidableEq, Repr

/-- `new MessageStore(maxMessagesPerChannel = 1000)`. -/
def MessageStore.new (maxMessagesPerChannel : Nat := 1000) : MessageStore :=
  { messages := [], maxMessagesPerChannel := maxMessagesPerChannel }

/-- The stored history of one (already lower-cased) channel key; a missing
key reads as the empty list (`this.messages.get(c) || []`). -/
def MessageStore.channelMessages (s : MessageStore) (channel : String) : List Message :=
  (mapGet s.messages channel).getD []

/-- `MessageStore.addMessage`: push onto the (lower-cased) channel's list,
then prune from the front when the bound is exceeded
(`splice(0, length - maxMessagesPerChannel)`). -/
def MessageStore.addMessage (s : MessageStore) (m : Message) : MessageStore :=
  let channel := jsToLower m.channel
  let old := (mapGet s.messages channel).getD []
  let pushed := old ++ [m]
  let pruned :=
    if pushed.length > s.maxMessagesPerChannel then
      pushed.drop (pushed.length - s.maxMessagesPerChannel)
    else pushed
  { s with messages := mapSet s.messages channel pruned }

/-- Stable insertion into a timestamp-sorted list: the new element goes
after every element whose timestamp is `≤` its own. -/
def insertByTimestamp (m : Message) : List Message → List Message
  | [] => [m]
  | h :: t =>
    if h.timestamp ≤ m.timestamp then h :: insertByTimestamp m t
    else m :: h :: t

/-- The stable ascending sort `arr.sort((a, b) => a.timestamp.getTime() -
b.timestamp.getTime())`, modelled as a left-to-right stable insertion sort. -/
def sortByTimestamp (l : List Message) : List Message :=
  l.foldl (fun acc m => insertByTimestamp m acc) []

/-- `MessageStore.getRecentMessages(channel, limit = 10)`:
`slice(-Math.min(limit, length))` followed by the timestamp sort. -/
def MessageStore.getRecentMessages (s : MessageStore) (channel : String)
    (limit : Int := 10) : List Message :=
  let channelMessages := (mapGet s.messages (jsToLower channel)).getD []
  sortByTimestamp
    (jsSlice1 channelMessages (-(min limit (channelMessages.length : Int))))

/-- `MessageStore.getAllMessages(channel?)`: one channel's list when a
truthy channel name is given (note `if (channel)`: the empty string is
falsy), otherwise all channels' lists flattened in `Map` insertion order and
stably sorted by timestamp. -/
def MessageStore.getAllMessages (s : MessageStore) (channel : Option String) : List Message :=
  if strTruthy channel then
    (mapGet s.messages (jsToLower (channel.getD ""))).getD []
  else
    sortByTimestamp (s.messages.map Prod.snd).flatten

/-- `MessageStore.filterMessages(filter)`: start from
`getAllMessages(filter.channel)`; apply the truthy username, content,
`since` and `until` filters in order; stably sort by timestamp; finally, if
*both* `page` and `pageSize` are supplied, return the slice
`[page*pageSize, page*pageSize + pageSize)` with a negative page clamped to
0 and a non-positive pageSize replaced by 10. -/
def MessageStore.filterMessages (s : MessageStore) (f : MessageFilter) : List Message :=
  let ms0 := s.getAllMessages f.channel
  let ms1 :=
    if strTruthy f.username then
      ms0.filter (fun m => strIncludes (jsToLower m.username) (jsToLower (f.username.getD "")))
    else ms0
  let ms2 :=
    if strTruthy f.contains then
      ms1.filter (fun m => strIncludes (jsToLower m.message) (jsToLower (f.contains.getD "")))
    else ms1
  let ms3 :=
    match f.since with
    | some d => ms2.filter (fun m => JsDate.geTime m.timestamp d)
    | none => ms2
  let ms4 :=
    match f.«until» with
    | some d => ms3.filter (fun m => JsDate.leTime m.timestamp d)
    | none => ms3
  let sorted := sortByTimestamp ms4
  match f.page, f.pageSize with
  | some p, some ps =>
    let page := if p < 0 then 0 else p
    let pageSize := if ps ≤ 0 then 10 else ps
    jsSlice sorted (page * pageSize) (page * pageSize + pageSize)
  | _, _ => sorted

/-- `MessageStore.clearMessages(channel?)`: delete one (lower-cased)
channel's entry, or clear the whole map. -/
def MessageStore.clearMessages (s : MessageStore) (channel : Option String) : MessageStore :=
  match channel with
  | some c => { s with messages := mapDelete s.messages (jsToLower c) }
  | none => { s with messages := [] }

/-- `MessageStore.getMessageCount(channel?)`: retained count, scoped to a
channel or global. -/
def MessageStore.getMessageCount (s : MessageStore) (channel : Option String) : Nat :=
  match channel with
  | some c => ((mapGet s.messages (jsToLower c)).getD []).length
  | none => (s.messages.map (fun p => p.2.length)).sum

/-!
## Connection manager (`twitchClient.ts`)

The `TwitchClient` keeps three pieces of local state: the `channels` set
(a JS `Set<string>`, modelled as a duplicate-free list in insertion
order), the `connected` flag and the `reconnectAttempts` counter.  The
transport (tmi.js) is external: its notifications arrive as events, and
the methods' direct effects on the local state are modelled as steps.  A
step also reports whether it scheduled a reconnection (`setTimeout` of the
fixed 5000 ms backoff in the `'disconnected'` handler); the second,
duplicate `'disconnected'` handler of the source only logs and touches no
state, so it does not appear in the step function.
-/

/-- `this.maxReconnectAttempts = 5`. -/
def maxReconnectAttempts : Nat := 5

/-- `this.reconnectInterval = 5000` (milliseconds). -/
def reconnectInterval : Nat := 5000

/-- JS `Set.add` on a duplicate-free insertion-ordered list. -/
def setAdd (l : List String) (x : String) : List String :=
  if x ∈ l then l else l ++ [x]

/-- JS `Set.delete` on a duplicate-free insertion-ordered list. -/
def setDelete (l : List String) (x : String) : List String :=
  l.erase x

/-- JS `channel.replace('#', '')`: remove the *first* occurrence of `#`. -/
def stripFirstHash (s : String) : String :=
  String.mk (go s.toList)
where
  go : List Char → List Char
    | [] => []
    | c :: t => if c = '#' then t else c :: go t

/-- The local state of a `TwitchClient`. -/
structure ClientState where
  channels : List String
  connected : Bool
  reconnectAttempts : Nat
deriving DecidableEq, Repr

/-- The `TwitchClient` constructor: seed the channel set with the
lower-cased configured channels (`new Set(channels.map(c =>
c.toLowerCase()))`), start disconnected with a zero attempt counter. -/
def TwitchClient.init (channels : List String) : ClientState :=
  { channels := channels.foldl (fun acc c => setAdd acc (jsToLower c)) []
    connected := false
    reconnectAttempts := 0 }

/-- One input to the connection state machine: either a transport event
(dispatched to the handlers installed by `setupEventHandlers`) or one of
the client's public methods (only its direct effect on the local state —
what it sends to the transport is modelled separately where a claim needs
it). -/
inductive ClientInput where
  | evConnected
  | evDisconnected (reason : String)
  | evJoin (channel : String) (self : Bool)
  | evPart (channel : String) (self : Bool)
  | evMessage (channel username text : String) (self : Bool)
  | apiConnect
  | apiDisconnect
  | apiJoinChannel (channel : String)
  | apiLeaveChannel (channel : String)
  | apiSendMessage (channel text : String)
deriving DecidableEq, Repr

/-- One step of the connection state machine.  Returns the next local
state together with the delay of a reconnection timer if this step
scheduled one (only the `'disconnected'` handler ever schedules one, and
only while `reconnectAttempts < maxReconnectAttempts`). -/
def clientStep (s : ClientState) : ClientInput → ClientState × Option Nat
  | .evConnected =>
    ({ s with connected := true, reconnectAttempts := 0 }, none)
  | .evDisconnected _ =>
    if s.reconnectAttempts < maxReconnectAttempts then
      ({ s with connected := false, reconnectAttempts := s.reconnectAttempts + 1 },
        some reconnectInterval)
    else
      ({ s with connected := false }, none)
  | .evJoin channel self =>
    (if self then { s with channels := setAdd s.channels (stripFirstHash channel) } else s,
      none)
  | .evPart channel self =>
    (if self then { s with channels := setDelete s.channels (stripFirstHash channel) } else s,
      none)
  | .evMessage _ _ _ _ => (s, none)
  | .apiConnect => (s, none)
  | .apiDisconnect =>
    (if s.connected then { s with connected := false } else s, none)
  | .apiJoinChannel _ => (s, none)
  | .apiLeaveChannel _ => (s, none)
  | .apiSendMessage _ _ => (s, none)

/-- Run `n` consecutive `'disconnected'` events (state part only). -/
def runDisconnects (s : ClientState) : Nat → ClientState
  | 0 => s
  | n + 1 => runDisconnects (clientStep s (.evDisconnected "")).1 n

/-- `'#' + channel` normalization of `sendMessage`/`joinChannel`/
`leaveChannel`: `channel.toLowerCase().startsWith('#') ? channel :
'#' + channel`. -/
def formatChannel (channel : String) : String :=
  if strStartsWith (jsToLower channel) "#" then channel else "#" ++ channel

/-- Outcome of `TwitchClient.sendMessage`. -/
inductive SendOutcome where
  | notConnectedError
  | sendError (e : String)
  | sent
deriving DecidableEq, Repr

/-- `TwitchClient.sendMessage(channel, message)`: throw the
not-connected error without touching the transport when `!this.connected`;
otherwise forward `(formatted channel, text)` to `client.say` and let a
transport rejection propagate (re-thrown after logging).  The second
component lists exactly the messages forwarded to the transport. -/
def TwitchClient.sendMessage (s : ClientState) (channel text : String)
    (transport : Except String Unit) : SendOutcome × List (String × String) :=
  if s.connected = false then
    (.notConnectedError, [])
  else
    match transport with
    | .ok _ => (.sent, [(formatChannel channel, text)])
    | .error e => (.sendError e, [(formatChannel channel, text)])

/-!
## The `filterMessages` tool handler (`mcpServer.ts`)

The handler converts the raw string arguments `since`/`until` with
`new Date(string)` — which never throws; an unparsable string yields an
Invalid Date — builds a `MessageFilter`, queries the store, and renders
either a "no messages found" success result or the formatted message list.
Nothing in this pipeline throws, so the surrounding `try/catch` (which
would produce an `isError: true` result) is never entered.  The textual
rendering is abstracted to the structure of the result; the `isError` flag
and the branch taken are modelled exactly.
-/

/-- The shape of a tool result envelope: either the literal
`'No messages found matching the filter criteria'` text, or the formatted
list of the returned messages. -/
inductive ToolContent where
  | noMatches
  | results (messages : List Message)
deriving DecidableEq, Repr

/-- The `{ content, isError? }` envelope returned by a tool handler. -/
structure ToolResult where
  content : ToolContent
  isError : Bool
deriving DecidableEq, Repr

/-- The `filterMessages` tool handler.  `since` and `until` arrive already
converted by `new Date(string)` (`JsDate.invalid` when the string was
unparsable — the conversion itself cannot fail). -/
def filterMessagesTool (store : MessageStore)
    (channel username contains : Option String)
    (since untilArg : Option JsDate) (page pageSize : Option Int) : ToolResult :=
  let filter : MessageFilter :=
    { channel := channel, username := username, contains := contains
      since := since, «until» := untilArg, page := page, pageSize := pageSize }
  let messages := store.filterMessages filter
  if messages.length = 0 then
    { content := .noMatches, isError := false }
  else
    { content := .results messages, isError := false }

/-!
## The per-criterion match predicates (from the spec wording of C4)

A message passes a criterion that is absent; a present criterion is a
case-insensitive substring match (username/content) or an inclusive
timestamp bound (since/until).
-/

def usernameMatches (o : Option String) (m : Message) : Bool :=
  match o with
  | none => true
  | some u => strIncludes (jsToLower m.username) (jsToLower u)

def containsMatches (o : Option String) (m : Message) : Bool :=
  match o with
  | none => true
  | some c => strIncludes (jsToLower m.message) (jsToLower c)

def sinceMatches (o : Option JsDate) (m : Message) : Bool :=
  match o with
  | none => true
  | some d => JsDate.geTime m.timestamp d

def untilMatches (o : Option JsDate) (m : Message) : Bool :=
  match o with
  | none => true
  | some d => JsDate.leTime m.timestamp d

/-- The effective page size after the non-positive-to-default-10 clamp. -/
def effectivePageSize (ps : Int) : Nat :=
  (if ps ≤ 0 then (10 : Int) else ps).toNat

/-!
## Demo data shared by concrete witnesses and counterexamples
-/

/-- A concrete message on channel `"foo"` with a given id and timestamp. -/
def msgAt (id : String) (ts : Int) : Message :=
  { id := id, channel := "foo", username := "ann", message := "hello world"
    timestamp := ts, tags := [] }

/-- The five example messages `m1..m5` of the design document, with
increasing timestamps. -/
def demoMessages : List Message :=
  [msgAt "m1" 1, msgAt "m2" 2, msgAt "m3" 3, msgAt "m4" 4, msgAt "m5" 5]

/-- A store (default bound 1000) holding exactly `m1..m5` on channel
`"foo"`. -/
def demoStore5 : MessageStore :=
  demoMessages.foldl MessageStore.addMessage (MessageStore.new 1000)

/-- A connected and a disconnected concrete client state. -/
def connState : ClientState := { channels := [], connected := true, reconnectAttempts := 0 }

def discState : ClientState := { channels := [], connected := false, reconnectAttempts := 0 }

/-- A concrete filter used by the pagination witness. -/
def demoFilter : MessageFilter := { username := some "ann" }

/-!
## Lemmas about the `Map` model
-/

theorem mapGet_mapSet_self (l : List (String × α)) (k : String) (v : α) :
    mapGet (mapSet l k v) k = some v := by
  induction l with
  | nil => simp [mapSet, mapGet]
  | cons h t ih =>
    obtain ⟨a, b⟩ := h
    by_cases hak : a = k
    · simp [mapSet, hak, mapGet]
    · simp [mapSet, hak, mapGet, ih]

theorem mapGet_mapSet_ne (l : List (String × α)) (k k' : String) (v : α)
    (h : k' ≠ k) : mapGet (mapSet l k v) k' = mapGet l k' := by
  have hkk : ¬ (k = k') := fun hh => h hh.symm
  induction l with
  | nil => simp [mapSet, mapGet, hkk]
  | cons hd t ih =>
    obtain ⟨a, b⟩ := hd
    by_cases hak : a = k
    · subst hak
      simp [mapSet, mapGet, hkk]
    · simp [mapSet, mapGet, hak, ih]

theorem mapGet_mapDelete_self (l : List (String × α)) (k : String) :
    mapGet (mapDelete l k) k = none := by
  induction l with
  | nil => simp [mapDelete, mapGet]
  | cons hd t ih =>
    obtain ⟨a, b⟩ := hd
    by_cases hak : a = k
    · simp [mapDelete, hak, ih]
    · simp [mapDelete, hak, mapGet, ih]

theorem mapGet_mapDelete_ne (l : List (String × α)) (k k' : String)
    (h : k' ≠ k) : mapGet (mapDelete l k) k' = mapGet l k' := by
  have hkk : ¬ (k = k') := fun hh => h hh.symm
  induction l with
  | nil => simp [mapDelete]
  | cons hd t ih =>
    obtain ⟨a, b⟩ := hd
    by_cases hak : a = k
    · subst hak
      simp [mapDelete, mapGet, hkk, ih]
    · simp [mapDelete, mapGet, hak, ih]

/-!
## Lemmas about the bounded push of `addMessage`
-/

/-- The conditional prune of `addMessage` always equals keeping the last
`n` elements (when the bound is not exceeded, `length - n = 0`). -/
theorem prune_eq_drop (l : List α) (n : Nat) :
    (if l.length > n then l.drop (l.length - n) else l) = l.drop (l.length - n) := by
  split
  · rfl
  · have h0 : l.length - n = 0 := by omega
    simp [h0]

/-- Keeping the last `n` of a list absorbs an earlier keep-last-`n`. -/
theorem drop_sub_append_absorb (n : Nat) (a b : List α) :
    (a.drop (a.length - n) ++ b).drop ((a.drop (a.length - n) ++ b).length - n)
      = (a ++ b).drop ((a ++ b).length - n) := by
  rw [List.drop_append_eq_append_drop, List.drop_append_eq_append_drop,
    List.drop_drop]
  have h1 : a.length - n + ((a.drop (a.length - n) ++ b).length - n)
      = (a ++ b).length - n := by
    simp only [List.length_append, List.length_drop]
    omega
  have h2 : (a.drop (a.length - n) ++ b).length - n - (a.drop (a.length - n)).length
      = (a ++ b).length - n - a.length := by
    simp only [List.length_append, List.length_drop]
    omega
  rw [h1, h2]

/-- `addMessage` updates exactly the lower-cased channel of the message:
append, then keep the most recent `maxMessagesPerChannel`. -/
theorem channelMessages_addMessage_self (s : MessageStore) (m : Message) :
    (s.addMessage m).channelMessages (jsToLower m.channel)
      = (s.channelMessages (jsToLower m.channel) ++ [m]).drop
          ((s.channelMessages (jsToLower m.channel) ++ [m]).length
            - s.maxMessagesPerChannel) := by
  simp only [MessageStore.addMessage, MessageStore.channelMessages,
    mapGet_mapSet_self, Option.getD_some, prune_eq_drop]

theorem maxMessages_addMessage (s : MessageStore) (m : Message) :
    (s.addMessage m).maxMessagesPerChannel = s.maxMessagesPerChannel := rfl

/-- Folding a sequence of messages that all normalize to channel `c` over
`addMessage`: the retained history of `c` is the keep-last-`bound` of the
previous history extended with the whole sequence. -/
theorem channelMessages_foldl_addMessage (ms : List Message) (s : MessageStore)
    (c : String) (hc : ∀ m ∈ ms, jsToLower m.channel = c)
    (hlen : (s.channelMessages c).length ≤ s.maxMessagesPerChannel) :
    (ms.foldl MessageStore.addMessage s).channelMessages c
      = (s.channelMessages c ++ ms).drop
          ((s.channelMessages c ++ ms).length - s.maxMessagesPerChannel) := by
  induction ms generalizing s with
  | nil =>
    have h0 : (s.channelMessages c).length - s.maxMessagesPerChannel = 0 := by
      omega
    simp [h0]
  | cons m t ih =>
    have hm : jsToLower m.channel = c := hc m (List.mem_cons_self m t)
    have hself := channelMessages_addMessage_self s m
    rw [hm] at hself
    have hlen' : ((s.addMessage m).channelMessages c).length
        ≤ (s.addMessage m).maxMessagesPerChannel := by
      rw [hself, maxMessages_addMessage]
      simp only [List.length_drop]
      omega
    have ht : ∀ m' ∈ t, jsToLower m'.channel = c := fun m' hm' => hc m' (List.mem_cons_of_mem m hm')
    calc ((m :: t).foldl MessageStore.addMessage s).channelMessages c
        = (t.foldl MessageStore.addMessage (s.addMessage m)).channelMessages c := by
          simp [List.foldl_cons]
      _ = ((s.addMessage m).channelMessages c ++ t).drop
            (((s.addMessage m).channelMessages c ++ t).length
              - (s.addMessage m).maxMessagesPerChannel) := ih (s.addMessage m) ht hlen'
      _ = (s.channelMessages c ++ m :: t).drop
            ((s.channelMessages c ++ m :: t).length - s.maxMessagesPerChannel) := by
          rw [hself, maxMessages_addMessage, drop_sub_append_absorb]
          simp

theorem channelMessages_new (max : Nat) (c : String) :
    (MessageStore.new max).channelMessages c = [] := rfl

theorem maxMessages_new (max : Nat) :
    (MessageStore.new max).maxMessagesPerChannel = max := rfl

/-- C1: for every sequence of `addMessage` calls whose messages all
normalize to one channel `c`, after each call (i.e. for every prefix of
the sequence) the retained history of `c` has length at most
`maxMessagesPerChannel`, has length exactly `min (total inserted) bound`,
and is exactly the most recent `min (total, bound)` messages in arrival
order — the oldest entries having been evicted first. -/
theorem addMessage_bound_invariant (max : Nat) (c : String) (ms : List Message)
    (hc : ∀ m ∈ ms, jsToLower m.channel = c) (k : Nat) :
    (((ms.take k).foldl MessageStore.addMessage (MessageStore.new max)).channelMessages c).length
        ≤ max ∧
    (((ms.take k).foldl MessageStore.addMessage (MessageStore.new max)).channelMessages c).length
        = min (ms.take k).length max ∧
    ((ms.take k).foldl MessageStore.addMessage (MessageStore.new max)).channelMessages c
        = (ms.take k).drop ((ms.take k).length - max) := by
  have hck : ∀ m ∈ ms.take k, jsToLower m.channel = c :=
    fun m hm => hc m (List.mem_of_mem_take hm)
  have hmain := channelMessages_foldl_addMessage (ms.take k) (MessageStore.new max) c hck
    (by simp [channelMessages_new])
  simp only [channelMessages_new, List.nil_append, maxMessages_new] at hmain
  refine ⟨?_, ?_, hmain⟩
  · rw [hmain]
    simp only [List.length_drop]
    omega
  · rw [hmain]
    simp only [List.length_drop]
    omega

/-- Witness for C1: three messages into channel `"foo"` with bound 2 keep
exactly the last two, `[m2, m3]`. -/
theorem addMessage_bound_invariant_witness :
    ((([msgAt "m1" 1, msgAt "m2" 2, msgAt "m3" 3].take 3).foldl
        MessageStore.addMessage (MessageStore.new 2)).channelMessages "foo").length ≤ 2 ∧
    ((([msgAt "m1" 1, msgAt "m2" 2, msgAt "m3" 3].take 3).foldl
        MessageStore.addMessage (MessageStore.new 2)).channelMessages "foo").length
      = min ([msgAt "m1" 1, msgAt "m2" 2, msgAt "m3" 3].take 3).length 2 ∧
    (([msgAt "m1" 1, msgAt "m2" 2, msgAt "m3" 3].take 3).foldl
        MessageStore.addMessage (MessageStore.new 2)).channelMessages "foo"
      = ([msgAt "m1" 1, msgAt "m2" 2, msgAt "m3" 3].take 3).drop
          (([msgAt "m1" 1, msgAt "m2" 2, msgAt "m3" 3].take 3).length - 2) :=
  addMessage_bound_invariant 2 "foo" [msgAt "m1" 1, msgAt "m2" 2, msgAt "m3" 3]
    (by decide) 3

/-- C2 (divergence evaluation): on the `m1..m5` store, `getRecentMessages`
with `limit = 3` correctly returns `[m3, m4, m5]`, but with `limit = 0` it
returns *all five* stored messages instead of at most 0 of them:
`slice(-Math.min(0, 5))` is `slice(-0)`, which JavaScript evaluates as
`slice(0)`, the whole array — contradicting the source's own contract that
`limit` is the "Maximum number of messages to return". -/
theorem getRecentMessages_limit_zero_divergence :
    demoStore5.getRecentMessages "foo" 3 = [msgAt "m3" 3, msgAt "m4" 4, msgAt "m5" 5] ∧
    demoStore5.getRecentMessages "foo" 0 = demoMessages ∧
    demoMessages.length = 5 := by
  refine ⟨?_, ?_, rfl⟩ <;> rfl

/-- C10: `addMessage` leaves every channel other than the message's
lower-cased channel unchanged (and does not change the bound), and
`clearMessages` on a channel removes exactly that channel's history,
leaving every other channel and the per-channel bound unchanged. -/
theorem store_frame_properties (s : MessageStore) (m : Message) (ch c : String) :
    (c ≠ jsToLower m.channel → (s.addMessage m).channelMessages c = s.channelMessages c) ∧
    (s.addMessage m).maxMessagesPerChannel = s.maxMessagesPerChannel ∧
    (c ≠ jsToLower ch →
      (s.clearMessages (some ch)).channelMessages c = s.channelMessages c) ∧
    (s.clearMessages (some ch)).channelMessages (jsToLower ch) = [] ∧
    (s.clearMessages (some ch)).maxMessagesPerChannel = s.maxMessagesPerChannel := by
  refine ⟨?_, rfl, ?_, ?_, rfl⟩
  · intro hne
    simp only [MessageStore.addMessage, MessageStore.channelMessages]
    rw [mapGet_mapSet_ne _ _ _ _ hne]
  · intro hne
    simp only [MessageStore.clearMessages, MessageStore.channelMessages]
    rw [mapGet_mapDelete_ne _ _ _ hne]
  · simp only [MessageStore.clearMessages, MessageStore.channelMessages]
    rw [mapGet_mapDelete_self]
    rfl

/-- Witness for C10: on the `m1..m5` store, adding a message to channel
`"bar"` leaves `"foo"` unchanged, and clearing `"bar"` leaves `"foo"`
unchanged while emptying `"bar"`. -/
theorem store_frame_properties_witness :
    ((demoStore5.addMessage { msgAt "x" 9 with channel := "Bar" }).channelMessages "foo"
        = demoStore5.channelMessages "foo") ∧
    ((demoStore5.clearMessages (some "Bar")).channelMessages "foo"
        = demoStore5.channelMessages "foo") ∧
    (demoStore5.clearMessages (some "Bar")).channelMessages (jsToLower "Bar") = [] :=
  ⟨(store_frame_properties demoStore5 { msgAt "x" 9 with channel := "Bar" } "Bar" "foo").1
      (by decide),
    (store_frame_properties demoStore5 { msgAt "x" 9 with channel := "Bar" } "Bar" "foo").2.2.1
      (by decide),
    (store_frame_properties demoStore5 { msgAt "x" 9 with channel := "Bar" } "Bar" "foo").2.2.2.1⟩

/-!
## Connection manager claims
-/

theorem clientStep_disconnected_attempts (s : ClientState) (r : String) :
    (clientStep s (.evDisconnected r)).1.reconnectAttempts
      = if s.reconnectAttempts < maxReconnectAttempts then s.reconnectAttempts + 1
        else s.reconnectAttempts := by
  simp only [clientStep]
  split <;> rfl

theorem runDisconnects_attempts_ge (s : ClientState) (n : Nat) :
    min maxReconnectAttempts (s.reconnectAttempts + n)
      ≤ (runDisconnects s n).reconnectAttempts := by
  induction n generalizing s with
  | zero => simp [runDisconnects]
  | succ n ih =>
    show min maxReconnectAttempts (s.reconnectAttempts + (n + 1))
      ≤ (runDisconnects (clientStep s (.evDisconnected "")).1 n).reconnectAttempts
    refine le_trans ?_ (ih (clientStep s (.evDisconnected "")).1)
    rw [clientStep_disconnected_attempts]
    simp only [maxReconnectAttempts] at *
    split <;> omega

theorem runDisconnects_attempts_eq (s : ClientState) (n : Nat)
    (h : s.reconnectAttempts + n ≤ maxReconnectAttempts) :
    (runDisconnects s n).reconnectAttempts = s.reconnectAttempts + n := by
  induction n generalizing s with
  | zero => simp [runDisconnects]
  | succ n ih =>
    show (runDisconnects (clientStep s (.evDisconnected "")).1 n).reconnectAttempts
      = s.reconnectAttempts + (n + 1)
    have hlt : s.reconnectAttempts < maxReconnectAttempts := by
      simp only [maxReconnectAttempts] at h ⊢
      omega
    have hstep : (clientStep s (.evDisconnected "")).1
        = { s with connected := false, reconnectAttempts := s.reconnectAttempts + 1 } := by
      simp [clientStep, hlt]
    rw [hstep, ih]
    · show s.reconnectAttempts + 1 + n = s.reconnectAttempts + (n + 1)
      omega
    · show s.reconnectAttempts + 1 + n ≤ maxReconnectAttempts
      simp only [maxReconnectAttempts] at h ⊢
      omega

/-- C6: an explicit `disconnect()` never schedules a reconnection; it is a
no-op when already disconnected, and otherwise only sets the status to
disconnected — while an unexpected transport drop with retry budget left
does schedule a reconnection after the fixed 5000 ms backoff. -/
theorem disconnect_no_reconnect (s : ClientState) (r : String) :
    (clientStep s .apiDisconnect).2 = none ∧
    (s.connected = false → clientStep s .apiDisconnect = (s, none)) ∧
    (s.connected = true →
      (clientStep s .apiDisconnect).1 = { s with connected := false }) ∧
    (s.reconnectAttempts < maxReconnectAttempts →
      (clientStep s (.evDisconnected r)).2 = some reconnectInterval) := by
  refine ⟨?_, ?_, ?_, ?_⟩
  · cases hc : s.connected <;> simp [clientStep, hc]
  · intro hc; simp [clientStep, hc]
  · intro hc; simp [clientStep, hc]
  · intro ha; simp [clientStep, ha]

/-- Witness for C6 at concrete states. -/
theorem disconnect_no_reconnect_witness :
    (clientStep discState .apiDisconnect = (discState, none)) ∧
    ((clientStep connState .apiDisconnect).1 = { connState with connected := false }) ∧
    (clientStep connState (.evDisconnected "io error")).2 = some reconnectInterval :=
  ⟨(disconnect_no_reconnect discState "io error").2.1 rfl,
    (disconnect_no_reconnect connState "io error").2.2.1 rfl,
    (disconnect_no_reconnect connState "io error").2.2.2 (by decide)⟩

/-- C7: after 5 (`maxReconnectAttempts`) consecutive unexpected disconnect
events with no intervening successful connect, no later disconnect event
ever schedules a reconnection again; each of the first 5 disconnects
(starting from a zero attempt counter) does schedule one; and any
successful connect (transport `'connected'` event) resets the attempt
counter to 0, restoring the full retry budget. -/
theorem reconnection_bound (s : ClientState) :
    (∀ k : Nat, ∀ r : String,
      (clientStep (runDisconnects s (maxReconnectAttempts + k)) (.evDisconnected r)).2 = none) ∧
    (∀ j : Nat, j < maxReconnectAttempts → s.reconnectAttempts = 0 →
      (clientStep (runDisconnects s j) (.evDisconnected "")).2 = some reconnectInterval) ∧
    (clientStep s .evConnected).1.reconnectAttempts = 0 ∧
    (clientStep s .evConnected).1.connected = true := by
  refine ⟨?_, ?_, rfl, rfl⟩
  · intro k r
    have hge := runDisconnects_attempts_ge s (maxReconnectAttempts + k)
    have h5 : maxReconnectAttempts
        ≤ (runDisconnects s (maxReconnectAttempts + k)).reconnectAttempts := by
      simp only [maxReconnectAttempts] at hge ⊢
      omega
    simp [clientStep, Nat.not_lt.mpr h5]
  · intro j hj h0
    have heq := runDisconnects_attempts_eq s j (by omega)
    rw [h0] at heq
    simp only [Nat.zero_add] at heq
    simp [clientStep, heq, hj]

/-- Witness for C7: from a fresh client, the sixth disconnect schedules
nothing, while the third (attempt counter 2 < 5) still schedules the
5000 ms retry. -/
theorem reconnection_bound_witness :
    (clientStep (runDisconnects (TwitchClient.init []) (maxReconnectAttempts + 0))
        (.evDisconnected "drop")).2 = none ∧
    (clientStep (runDisconnects (TwitchClient.init []) 2) (.evDisconnected "")).2
        = some reconnectInterval :=
  ⟨(reconnection_bound (TwitchClient.init [])).1 0 "drop",
    (reconnection_bound (TwitchClient.init [])).2.1 2 (by decide) rfl⟩

/-- C8: `sendMessage` fails with the not-connected error and forwards
nothing to the transport whenever the client is not connected; when
connected it forwards exactly the (normalized-channel, text) pair, a
transport rejection surfaces as a send error carrying the transport's
message, and a transport acknowledgment yields success. -/
theorem sendMessage_spec (s : ClientState) (channel text : String)
    (tr : Except String Unit) :
    (s.connected = false →
      TwitchClient.sendMessage s channel text tr = (.notConnectedError, [])) ∧
    (s.connected = true →
      (TwitchClient.sendMessage s channel text tr).2 = [(formatChannel channel, text)]) ∧
    (s.connected = true → ∀ e, tr = .error e →
      (TwitchClient.sendMessage s channel text tr).1 = .sendError e) ∧
    (s.connected = true → tr = .ok () →
      (TwitchClient.sendMessage s channel text tr).1 = .sent) := by
  refine ⟨?_, ?_, ?_, ?_⟩
  · intro hc; simp [TwitchClient.sendMessage, hc]
  · intro hc; cases tr <;> simp [TwitchClient.sendMessage, hc]
  · intro hc e he; subst he; simp [TwitchClient.sendMessage, hc]
  · intro hc he; subst he; simp [TwitchClient.sendMessage, hc]

/-- Witness for C8 at concrete states and transport outcomes. -/
theorem sendMessage_spec_witness :
    (TwitchClient.sendMessage discState "general" "hi" (.ok ()) = (.notConnectedError, [])) ∧
    ((TwitchClient.sendMessage connState "general" "hi" (.ok ())).2
      = [(formatChannel "general", "hi")]) ∧
    ((TwitchClient.sendMessage connState "general" "hi" (.error "msg rejected")).1
      = .sendError "msg rejected") ∧
    ((TwitchClient.sendMessage connState "general" "hi" (.ok ())).1 = .sent) :=
  ⟨(sendMessage_spec discState "general" "hi" (.ok ())).1 rfl,
    (sendMessage_spec connState "general" "hi" (.ok ())).2.1 rfl,
    (sendMessage_spec connState "general" "hi" (.error "msg rejected")).2.2.1 rfl
      "msg rejected" rfl,
    (sendMessage_spec connState "general" "hi" (.ok ())).2.2.2 rfl rfl⟩

/-- C9 (counterexample): the claim says `joinedChannels` gains entries
*only* on a confirmed self-join acknowledgment from the transport over any
sequence of construction, API calls and transport events — but the
constructor itself seeds the set from the configured channel list: a
freshly constructed client that has processed no transport event at all
already contains `"foo"`. -/
theorem init_seeds_joinedChannels :
    (TwitchClient.init ["Foo"]).channels = ["foo"] := by rfl

/-- C9 (amended): *after construction* (which seeds the set with the
lower-cased configured channels), `channels` gains an entry only when a
transport `'join'` event with `self = true` is processed, and loses an
entry only when a transport `'part'` event with `self = true` is
processed; no API call and no other transport event changes the set — in
particular nothing clears it on disconnect. -/
theorem clientStep_join_self_channels (s : ClientState) (ch : String) :
    (clientStep s (.evJoin ch true)).1.channels
      = setAdd s.channels (stripFirstHash ch) := rfl

theorem clientStep_part_self_channels (s : ClientState) (ch : String) :
    (clientStep s (.evPart ch true)).1.channels
      = setDelete s.channels (stripFirstHash ch) := rfl

theorem clientStep_disconnected_channels (s : ClientState) (r : String) :
    (clientStep s (.evDisconnected r)).1.channels = s.channels := by
  simp only [clientStep]
  split <;> rfl

theorem clientStep_apiDisconnect_channels (s : ClientState) :
    (clientStep s .apiDisconnect).1.channels = s.channels := by
  simp only [clientStep]
  split <;> rfl

theorem joinedChannels_transitions (s : ClientState) (i : ClientInput) (x : String) :
    (x ∈ (clientStep s i).1.channels → x ∉ s.channels →
      ∃ ch, i = .evJoin ch true ∧ x = stripFirstHash ch) ∧
    (x ∈ s.channels → x ∉ (clientStep s i).1.channels →
      ∃ ch, i = .evPart ch true ∧ x = stripFirstHash ch) := by
  cases i with
  | evJoin ch self =>
    cases self with
    | false => exact ⟨fun hin hout => absurd hin hout, fun hin hout => absurd hin hout⟩
    | true =>
      constructor
      · intro hin hout
        refine ⟨ch, rfl, ?_⟩
        rw [clientStep_join_self_channels] at hin
        unfold setAdd at hin
        split at hin
        · exact absurd hin hout
        · rcases List.mem_append.mp hin with h | h
          · exact absurd h hout
          · simpa using h
      · intro hin hout
        exfalso
        apply hout
        rw [clientStep_join_self_channels]
        unfold setAdd
        split
        · exact hin
        · exact List.mem_append.mpr (Or.inl hin)
  | evPart ch self =>
    cases self with
    | false => exact ⟨fun hin hout => absurd hin hout, fun hin hout => absurd hin hout⟩
    | true =>
      constructor
      · intro hin hout
        exfalso
        rw [clientStep_part_self_channels] at hin
        exact hout (List.mem_of_mem_erase hin)
      · intro hin hout
        refine ⟨ch, rfl, ?_⟩
        by_contra hne
        apply hout
        rw [clientStep_part_self_channels]
        unfold setDelete
        exact (List.mem_erase_of_ne hne).mpr hin
  | evConnected => exact ⟨fun hin hout => absurd hin hout, fun hin hout => absurd hin hout⟩
  | evDisconnected r =>
    rw [clientStep_disconnected_channels]
    exact ⟨fun hin hout => absurd hin hout, fun hin hout => absurd hin hout⟩
  | evMessage a b c d => exact ⟨fun hin hout => absurd hin hout, fun hin hout => absurd hin hout⟩
  | apiConnect => exact ⟨fun hin hout => absurd hin hout, fun hin hout => absurd hin hout⟩
  | apiDisconnect =>
    rw [clientStep_apiDisconnect_channels]
    exact ⟨fun hin hout => absurd hin hout, fun hin hout => absurd hin hout⟩
  | apiJoinChannel ch => exact ⟨fun hin hout => absurd hin hout, fun hin hout => absurd hin hout⟩
  | apiLeaveChannel ch => exact ⟨fun hin hout => absurd hin hout, fun hin hout => absurd hin hout⟩
  | apiSendMessage ch t => exact ⟨fun hin hout => absurd hin hout, fun hin hout => absurd hin hout⟩

/-- Witness for the amended C9: the only way a fresh client's set gains
`"general"` in one step is the self-join event for `"#general"`. -/
theorem joinedChannels_transitions_witness :
    ∃ ch, ClientInput.evJoin "#general" true = ClientInput.evJoin ch true ∧
      "general" = stripFirstHash ch :=
  (joinedChannels_transitions (TwitchClient.init []) (.evJoin "#general" true) "general").1
    (by decide) (by decide)

/-!
## Filter and pagination lemmas
-/

theorem jsToLower_empty : jsToLower "" = "" := rfl

theorem strIncludes_empty (s : String) : strIncludes s "" = true := by
  unfold strIncludes
  have h0 : ("" : String).toList = [] := rfl
  rw [h0]
  cases hs : s.toList with
  | nil => rfl
  | cons c t => simp [listIncludes, List.isPrefixOf]

theorem filter_two (l : List α) (c1 c2 : α → Bool) :
    (l.filter c1).filter c2 = l.filter (fun a => c1 a && c2 a) := by
  rw [List.filter_filter]
  exact List.filter_congr (fun a _ => by cases c1 a <;> cases c2 a <;> rfl)

theorem filter_three (l : List α) (c1 c2 c3 : α → Bool) :
    ((l.filter c1).filter c2).filter c3
      = l.filter (fun a => c1 a && c2 a && c3 a) := by
  rw [List.filter_filter, List.filter_filter]
  exact List.filter_congr (fun a _ => by
    cases c1 a <;> cases c2 a <;> cases c3 a <;> rfl)

theorem filter_four (l : List α) (c1 c2 c3 c4 : α → Bool) :
    (((l.filter c1).filter c2).filter c3).filter c4
      = l.filter (fun a => c1 a && c2 a && c3 a && c4 a) := by
  rw [List.filter_filter, List.filter_filter, List.filter_filter]
  exact List.filter_congr (fun a _ => by
    cases c1 a <;> cases c2 a <;> cases c3 a <;> cases c4 a <;> rfl)

/-- The truthy username stage of `filterMessages` equals an unconditional
filter by the spec's username criterion (an absent or empty username
filter keeps every message, since every string includes `""`). -/
theorem stage_username_eq (ms : List Message) (o : Option String) :
    (if strTruthy o then
        ms.filter (fun m => strIncludes (jsToLower m.username) (jsToLower (o.getD "")))
      else ms)
      = ms.filter (usernameMatches o) := by
  cases o with
  | none =>
    have hnone : usernameMatches none = fun _ => true := rfl
    simp [strTruthy, hnone]
  | some u =>
    by_cases hu : u = ""
    · subst hu
      have hsome : usernameMatches (some "") = fun _ => true := by
        funext m
        simp [usernameMatches, jsToLower_empty, strIncludes_empty]
      simp [strTruthy, hsome]
    · have hfun : usernameMatches (some u)
          = fun m => strIncludes (jsToLower m.username) (jsToLower u) := rfl
      simp [strTruthy, hu, hfun]

/-- The truthy content stage of `filterMessages` equals an unconditional
filter by the spec's content criterion. -/
theorem stage_contains_eq (ms : List Message) (o : Option String) :
    (if strTruthy o then
        ms.filter (fun m => strIncludes (jsToLower m.message) (jsToLower (o.getD "")))
      else ms)
      = ms.filter (containsMatches o) := by
  cases o with
  | none =>
    have hnone : containsMatches none = fun _ => true := rfl
    simp [strTruthy, hnone]
  | some c =>
    by_cases hc : c = ""
    · subst hc
      have hsome : containsMatches (some "") = fun _ => true := by
        funext m
        simp [containsMatches, jsToLower_empty, strIncludes_empty]
      simp [strTruthy, hsome]
    · have hfun : containsMatches (some c)
          = fun m => strIncludes (jsToLower m.message) (jsToLower c) := rfl
      simp [strTruthy, hc, hfun]

/-- C4: with pagination not requested, `filterMessages` returns exactly
the intersection of the per-criterion matches — starting from
`getAllMessages(filter.channel)`, a message is kept iff it passes the
(case-insensitive) username substring criterion, the (case-insensitive)
content substring criterion, the inclusive `since` lower bound and the
inclusive `until` upper bound, for each criterion that is present — and
the result is (stably) sorted ascending by timestamp. -/
theorem filterMessages_composition (s : MessageStore)
    (channel username contains : Option String) (since untilArg : Option JsDate) :
    s.filterMessages
        { channel := channel, username := username, contains := contains
          since := since, «until» := untilArg, page := none, pageSize := none }
      = sortByTimestamp ((s.getAllMessages channel).filter (fun m =>
          usernameMatches username m && containsMatches contains m &&
          sinceMatches since m && untilMatches untilArg m)) := by
  cases since with
  | none =>
    cases untilArg with
    | none =>
      simp only [MessageStore.filterMessages]
      rw [stage_username_eq, stage_contains_eq, filter_two]
      simp [sinceMatches, untilMatches]
    | some d' =>
      simp only [MessageStore.filterMessages]
      rw [stage_username_eq, stage_contains_eq, filter_three]
      simp [sinceMatches, untilMatches]
  | some d =>
    cases untilArg with
    | none =>
      simp only [MessageStore.filterMessages]
      rw [stage_username_eq, stage_contains_eq, filter_three]
      simp [sinceMatches, untilMatches]
    | some d' =>
      simp only [MessageStore.filterMessages]
      rw [stage_username_eq, stage_contains_eq, filter_four]
      simp [sinceMatches, untilMatches]

theorem geTime_invalid (t : Int) : JsDate.geTime t .invalid = false := rfl

theorem leTime_invalid (t : Int) : JsDate.leTime t .invalid = false := rfl

theorem filter_geTime_invalid (l : List Message) :
    l.filter (fun m => JsDate.geTime m.timestamp JsDate.invalid) = [] := by
  induction l with
  | nil => rfl
  | cons h t ih => simp [List.filter_cons, geTime_invalid, ih]

theorem filter_leTime_invalid (l : List Message) :
    l.filter (fun m => JsDate.leTime m.timestamp JsDate.invalid) = [] := by
  induction l with
  | nil => rfl
  | cons h t ih => simp [List.filter_cons, leTime_invalid, ih]

theorem jsSlice_nil (a b : Int) : jsSlice ([] : List α) a b = [] := by
  simp [jsSlice]

theorem sortByTimestamp_nil : sortByTimestamp [] = [] := rfl

/-- An Invalid `since` bound empties the result of `filterMessages`: the
comparison `msg.timestamp >= Invalid Date` is false for every message. -/
theorem filterMessages_since_invalid (s : MessageStore) (f : MessageFilter)
    (h : f.since = some .invalid) : s.filterMessages f = [] := by
  unfold MessageStore.filterMessages
  rw [h]
  cases hu : f.«until» with
  | none =>
    cases hp : f.page with
    | none => simp [filter_geTime_invalid, geTime_invalid, sortByTimestamp_nil]
    | some p =>
      cases hps : f.pageSize with
      | none => simp [filter_geTime_invalid, geTime_invalid, sortByTimestamp_nil]
      | some ps => simp [filter_geTime_invalid, geTime_invalid, sortByTimestamp_nil, jsSlice_nil]
  | some d =>
    cases hp : f.page with
    | none => simp [filter_geTime_invalid, geTime_invalid, sortByTimestamp_nil]
    | some p =>
      cases hps : f.pageSize with
      | none => simp [filter_geTime_invalid, geTime_invalid, sortByTimestamp_nil]
      | some ps => simp [filter_geTime_invalid, geTime_invalid, sortByTimestamp_nil, jsSlice_nil]

/-- An Invalid `until` bound empties the result of `filterMessages`. -/
theorem filterMessages_until_invalid (s : MessageStore) (f : MessageFilter)
    (h : f.«until» = some .invalid) : s.filterMessages f = [] := by
  unfold MessageStore.filterMessages
  rw [h]
  cases hs : f.since with
  | none =>
    cases hp : f.page with
    | none => simp [filter_leTime_invalid, leTime_invalid, sortByTimestamp_nil]
    | some p =>
      cases hps : f.pageSize with
      | none => simp [filter_leTime_invalid, leTime_invalid, sortByTimestamp_nil]
      | some ps => simp [filter_leTime_invalid, leTime_invalid, sortByTimestamp_nil, jsSlice_nil]
  | some d =>
    cases hp : f.page with
    | none => simp [filter_leTime_invalid, leTime_invalid, sortByTimestamp_nil]
    | some p =>
      cases hps : f.pageSize with
      | none => simp [filter_leTime_invalid, leTime_invalid, sortByTimestamp_nil]
      | some ps => simp [filter_leTime_invalid, leTime_invalid, sortByTimestamp_nil, jsSlice_nil]

/-- C5 (counterexample): calling the `filterMessages` tool with an
unparsable `since` string (which `new Date` turns into an Invalid Date,
without throwing) on a store that does hold messages does *not* produce a
`ValidationError` tool-level error result: it returns an ordinary
success envelope (`isError = false`) saying no messages matched. -/
theorem filterMessagesTool_invalid_since_counterexample :
    filterMessagesTool demoStore5 none none none (some JsDate.invalid) none none none
      = { content := ToolContent.noMatches, isError := false } := by
  have h := filterMessages_since_invalid demoStore5
    { since := some .invalid } rfl
  unfold filterMessagesTool
  simp [h]

/-- C5 (amended): an unparsable `since` or `until` argument never fails
the tool call at all — `new Date` yields an Invalid Date instead of
throwing, every timestamp comparison against it is false, so the handler
returns a *success* envelope (`isError = false`) reporting that no
messages matched; in particular no unhandled fault escapes, but no
`ValidationError` is produced either. -/
theorem filterMessagesTool_unparsable_dates (store : MessageStore)
    (channel username contains : Option String) (other : Option JsDate)
    (page pageSize : Option Int) :
    filterMessagesTool store channel username contains (some .invalid) other page pageSize
      = { content := ToolContent.noMatches, isError := false } ∧
    filterMessagesTool store channel username contains other (some .invalid) page pageSize
      = { content := ToolContent.noMatches, isError := false } := by
  constructor
  · have h := filterMessages_since_invalid store
      { channel := channel, username := username, contains := contains
        since := some .invalid, «until» := other, page := page, pageSize := pageSize } rfl
    unfold filterMessagesTool
    simp [h]
  · have h := filterMessages_until_invalid store
      { channel := channel, username := username, contains := contains
        since := other, «until» := some .invalid, page := page, pageSize := pageSize } rfl
    unfold filterMessagesTool
    simp [h]

theorem effectivePageSize_pos (ps : Int) : 0 < effectivePageSize ps := by
  unfold effectivePageSize
  split <;> omega

theorem effectivePageSize_cast (ps : Int) :
    ((effectivePageSize ps : Nat) : Int) = if ps ≤ 0 then 10 else ps := by
  unfold effectivePageSize
  split <;> omega

/-- `filterMessages` with both pagination fields present is the JS slice
`[page*pageSize, page*pageSize + pageSize)` (after the clamps) of the
`filterMessages` result with pagination absent: the filter/sort pipeline
does not read the pagination fields. -/
theorem filterMessages_paged (s : MessageStore) (f : MessageFilter) (p ps : Int) :
    s.filterMessages { f with page := some p, pageSize := some ps }
      = jsSlice (s.filterMessages { f with page := none, pageSize := none })
          ((if p < 0 then 0 else p) * (if ps ≤ 0 then 10 else ps))
          ((if p < 0 then 0 else p) * (if ps ≤ 0 then 10 else ps)
            + (if ps ≤ 0 then 10 else ps)) := rfl

/-- `jsSlice` with a natural start index and width: drop then take. -/
theorem jsSlice_nat (l : List α) (a b : Nat) :
    jsSlice l (a : Int) ((a : Int) + (b : Int)) = (l.drop a).take b := by
  unfold jsSlice
  have ha : ¬ ((a : Int) < 0) := by omega
  have hab : ¬ ((a : Int) + (b : Int) < 0) := by omega
  simp only [if_neg ha, if_neg hab]
  by_cases hl : a ≤ l.length
  · have hmin : min (a : Int) ((l.length : Nat) : Int) = (a : Int) := by omega
    rw [hmin]
    have htn : ((a : Int)).toNat = a := by omega
    rw [htn]
    rw [List.take_eq_take]
    simp only [List.length_drop]
    omega
  · have h1 : l.drop ((min (a : Int) ((l.length : Nat) : Int)).toNat) = [] := by
      rw [List.drop_eq_nil_iff]
      omega
    have h2 : l.drop a = [] := by
      rw [List.drop_eq_nil_iff]
      omega
    rw [h1, h2]
    simp

/-- Pages of width `sz` tile an arbitrary list: the concatenation of the
first `N` pages is the first `N * sz` elements. -/
theorem drop_take_tiling (l : List α) (sz N : Nat) :
    ((List.range N).map (fun p => (l.drop (p * sz)).take sz)).flatten
      = l.take (N * sz) := by
  induction N with
  | zero => simp
  | succ n ih =>
    have hr : List.range (n + 1) = List.range n ++ [n] := by
      simpa using List.range_succ (n := n)
    rw [hr, List.map_append, List.flatten_append, ih]
    have hm : (n + 1) * sz = n * sz + sz := by ring
    rw [hm, List.take_add]
    simp

/-- A page of width `sz ≥ 1` is empty exactly when it starts at or past
the end of the list. -/
theorem drop_take_empty_iff (l : List α) (sz p : Nat) (hsz : 0 < sz) :
    ((l.drop (p * sz)).take sz = [] ↔ l.length ≤ p * sz) := by
  rw [List.take_eq_nil_iff]
  constructor
  · rintro (h | h)
    · omega
    · rw [List.drop_eq_nil_iff] at h
      exact h
  · intro h
    right
    rw [List.drop_eq_nil_iff]
    exact h

/-- C3: pagination consistency of `filterMessages`.  For a fixed store and
filter, with `sz` the effective page size (non-positive `pageSize` is
replaced by the default 10, so `sz ≥ 1`): each page `p ≥ 0` is exactly the
slice `[p*sz, p*sz + sz)` of the unpaginated filtered sequence; the
concatenation of pages `0..N-1` is its first `N*sz` elements — so
concatenating pages until the first empty page (page `p` is empty iff
`p*sz` is past the end) reproduces the unpaginated sequence exactly, with
no duplicates and no gaps; a negative page is clamped to page 0, and a
non-positive pageSize behaves as pageSize 10. -/
theorem filterMessages_pagination_consistency (s : MessageStore)
    (f : MessageFilter) (ps : Int) :
    (∀ p : Nat,
      s.filterMessages { f with page := some (p : Int), pageSize := some ps }
        = ((s.filterMessages { f with page := none, pageSize := none }).drop
            (p * effectivePageSize ps)).take (effectivePageSize ps)) ∧
    (∀ N : Nat,
      ((List.range N).map (fun (p : Nat) =>
          s.filterMessages { f with page := some (p : Int), pageSize := some ps })).flatten
        = (s.filterMessages { f with page := none, pageSize := none }).take
            (N * effectivePageSize ps)) ∧
    (∀ p : Nat,
      (s.filterMessages { f with page := some (p : Int), pageSize := some ps } = []
        ↔ (s.filterMessages { f with page := none, pageSize := none }).length
            ≤ p * effectivePageSize ps)) ∧
    (∀ N : Nat,
      (s.filterMessages { f with page := none, pageSize := none }).length
          ≤ N * effectivePageSize ps →
      ((List.range N).map (fun (p : Nat) =>
          s.filterMessages { f with page := some (p : Int), pageSize := some ps })).flatten
        = s.filterMessages { f with page := none, pageSize := none }) ∧
    (∀ p : Int, p < 0 →
      s.filterMessages { f with page := some p, pageSize := some ps }
        = s.filterMessages { f with page := some 0, pageSize := some ps }) ∧
    (ps ≤ 0 →
      ∀ p : Int, s.filterMessages { f with page := some p, pageSize := some ps }
        = s.filterMessages { f with page := some p, pageSize := some 10 }) := by
  have hsz := effectivePageSize_pos ps
  have hcast := effectivePageSize_cast ps
  have hpage : ∀ p : Nat,
      s.filterMessages { f with page := some (p : Int), pageSize := some ps }
        = ((s.filterMessages { f with page := none, pageSize := none }).drop
            (p * effectivePageSize ps)).take (effectivePageSize ps) := by
    intro p
    rw [filterMessages_paged]
    have hp0 : (if (p : Int) < 0 then 0 else (p : Int)) = (p : Int) := by
      rw [if_neg]
      omega
    rw [hp0, ← hcast]
    have h1 : (p : Int) * ((effectivePageSize ps : Nat) : Int)
        = ((p * effectivePageSize ps : Nat) : Int) := by
      push_cast
      ring
    rw [h1, jsSlice_nat]
  have htile : ∀ N : Nat,
      ((List.range N).map (fun (p : Nat) =>
          s.filterMessages { f with page := some (p : Int), pageSize := some ps })).flatten
        = (s.filterMessages { f with page := none, pageSize := none }).take
            (N * effectivePageSize ps) := by
    intro N
    refine Eq.trans ?_ (drop_take_tiling
      (s.filterMessages { f with page := none, pageSize := none })
      (effectivePageSize ps) N)
    congr 1
    exact List.map_congr_left (fun p _ => hpage p)
  refine ⟨hpage, htile, ?_, ?_, ?_, ?_⟩
  · intro p
    rw [hpage p]
    exact drop_take_empty_iff _ _ p hsz
  · intro N hN
    rw [htile N]
    exact List.take_of_length_le hN
  · intro p hp
    rw [filterMessages_paged, filterMessages_paged]
    have h0 : (if p < 0 then (0 : Int) else p) = (if (0 : Int) < 0 then 0 else 0) := by
      rw [if_pos hp, if_neg (by omega)]
    rw [h0]
  · intro hps p
    rw [filterMessages_paged, filterMessages_paged]
    have h10 : (if ps ≤ 0 then (10 : Int) else ps) = (if (10 : Int) ≤ 0 then 10 else 10) := by
      rw [if_pos hps, if_neg (by omega)]
    rw [h10]

/-- Witness for C3 on the concrete `m1..m5` store: page 1 of size 2 is the
slice `[2, 4)` of the unpaginated result, two pages of size 3 concatenate
to the whole result, and a negative page behaves as page 0. -/
theorem filterMessages_pagination_consistency_witness :
    (demoStore5.filterMessages { demoFilter with page := some ((1 : Nat) : Int), pageSize := some 2 }
      = ((demoStore5.filterMessages { demoFilter with page := none, pageSize := none }).drop
          (1 * effectivePageSize 2)).take (effectivePageSize 2)) ∧
    (((List.range 2).map (fun p =>
        demoStore5.filterMessages { demoFilter with page := some ((p : Nat) : Int), pageSize := some 3 })).flatten
      = demoStore5.filterMessages { demoFilter with page := none, pageSize := none }) ∧
    (demoStore5.filterMessages { demoFilter with page := some (-3), pageSize := some 2 }
      = demoStore5.filterMessages { demoFilter with page := some 0, pageSize := some 2 }) :=
  ⟨(filterMessages_pagination_consistency demoStore5 demoFilter 2).1 1,
    (filterMessages_pagination_consistency demoStore5 demoFilter 3).2.2.2.1 2 (by decide),
    (filterMessages_pagination_consistency demoStore5 demoFilter 2).2.2.2.2.1 (-3) (by decide)⟩
